import Mathlib

/-!
Verification of the command-safety filter of Terminal-Helper
(`src/safety.py`, class `CommandSafety`).

A Python `str` is modelled as a `String` (internally `List Char`); the
ASCII fragment of `str.strip`, `str.lower`, `str.split` and `" ".join`
is embedded, together with a small backtracking regular-expression
engine covering exactly the constructs used by `DANGEROUS_PATTERNS`
(literal characters, character classes, `\s`, `.`, `+`, `*`, `?`,
word boundary `\b`), always searched case-insensitively as the source
passes `re.IGNORECASE`.
-/

namespace TerminalHelper

/-- ASCII whitespace as recognised by Python's `str.strip` / `str.split`. -/
def isSpaceC (c : Char) : Bool :=
  c = ' ' || c = '\t' || c = '\n' || c = '\r' || c = '\x0b' || c = '\x0c'

/-- Python `str.strip()` on the ASCII fragment: drop leading and trailing
whitespace. -/
def stripWs (s : List Char) : List Char :=
  (((s.dropWhile isSpaceC).reverse).dropWhile isSpaceC).reverse

/-- One step of the right fold that groups a character list into
maximal runs of non-whitespace characters (Python `str.split()`):
a whitespace character opens a fresh (possibly empty) group, any other
character is prepended to the current head group. -/
def wordStep (c : Char) (acc : List (List Char)) : List (List Char) :=
  if isSpaceC c then [] :: acc
  else
    match acc with
    | [] => [[c]]
    | w :: ws => (c :: w) :: ws

def splitWsAux (s : List Char) : List (List Char) :=
  s.foldr wordStep []

/-- Python `cmd.split()`: the non-empty maximal runs of non-whitespace
characters, in order. -/
def splitWs (s : List Char) : List (List Char) :=
  (splitWsAux s).filter (fun w => !w.isEmpty)

/-- Python `" ".join(cmd.split())`: whitespace normalisation used for the
pattern pass in `CommandSafety.check`. -/
def normWs (s : List Char) : List Char :=
  List.intercalate [' '] (splitWs s)

/-- Regular expressions, shallow syntax sufficient for the rule table. -/
inductive RE : Type
  | eps : RE
  | pred : (Char → Bool) → RE
  | seq : RE → RE → RE
  | alt : RE → RE → RE
  | star : RE → RE
  | wb : RE

/-- Word character for `\b` (Python ASCII `\w`). -/
def isWordC (c : Char) : Bool :=
  c.isAlphanum || c = '_'

/-- Zero-width word-boundary test between the previously consumed
character and the head of the remaining input. -/
def atBoundary (prev : Option Char) (s : List Char) : Bool :=
  let a := match prev with
    | none => false
    | some c => isWordC c
  let b := match s with
    | [] => false
    | c :: _ => isWordC c
  a != b

/-- Fuelled backtracking matcher in continuation style.  `prev` is the
character immediately before the current position (for `\b`); the
continuation receives the updated previous character and the remaining
input.  The `star` case only iterates after strict progress, which is
also how Python's engine avoids looping on an empty repetition. -/
def mat : Nat → RE → Option Char → List Char → (Option Char → List Char → Bool) → Bool
  | 0, _, _, _, _ => false
  | Nat.succ fuel, r, prev, s, k =>
    match r with
    | RE.eps => k prev s
    | RE.pred p =>
      match s with
      | [] => false
      | c :: rest => p c && k (some c) rest
    | RE.seq a b => mat fuel a prev s (fun p2 s2 => mat fuel b p2 s2 k)
    | RE.alt a b => mat fuel a prev s k || mat fuel b prev s k
    | RE.star a =>
      k prev s || mat fuel a prev s (fun p2 s2 =>
        if s2.length < s.length then mat fuel (RE.star a) p2 s2 k else false)
    | RE.wb => atBoundary prev s && k prev s

/-- Structural size of a regular expression, used to compute a fuel
bound that dominates the depth of any matching attempt. -/
def reSize : RE → Nat
  | RE.eps => 1
  | RE.pred _ => 1
  | RE.seq a b => reSize a + reSize b + 1
  | RE.alt a b => reSize a + reSize b + 1
  | RE.star a => reSize a + 1
  | RE.wb => 1

/-- Try to match `r` starting at every position of the input, as
Python's `re.search` does, keeping track of the preceding character. -/
def searchPos (fuel : Nat) (r : RE) : Option Char → List Char → Bool
  | prev, s =>
    mat fuel r prev s (fun _ _ => true) ||
      match s with
      | [] => false
      | c :: rest => searchPos fuel r (some c) rest

/-- Boolean truth of Python `re.search(pattern, s, re.IGNORECASE)`. -/
def reSearch (r : RE) (s : List Char) : Bool :=
  searchPos ((s.length + 2) * (reSize r + 2) * 2) r none s

/-- A literal pattern character under `re.IGNORECASE`. -/
def litR (c : Char) : RE :=
  RE.pred (fun d => Char.toLower d = Char.toLower c)

/-- A literal pattern string (sequence of case-insensitive characters). -/
def rstr (s : String) : RE :=
  s.data.foldr (fun c r => RE.seq (litR c) r) RE.eps

/-- Sequential composition of a list of regular expressions. -/
def seqs (l : List RE) : RE :=
  l.foldr RE.seq RE.eps

/-- The class `\s`. -/
def wsR : RE := RE.pred isSpaceC

/-- Postfix `+`. -/
def plusR (r : RE) : RE := RE.seq r (RE.star r)

/-- Postfix `?`. -/
def optR (r : RE) : RE := RE.alt r RE.eps

/-- The metacharacter `.` (any character but a newline). -/
def dotR : RE := RE.pred (fun c => !(c = '\n'))

/-- A character class listed as a string, under `re.IGNORECASE`. -/
def oneOf (cs : String) : RE :=
  RE.pred (fun d => cs.data.contains (Char.toLower d))

/-- The class `[a-z]` under `re.IGNORECASE`. -/
def lowerRangeR : RE :=
  RE.pred (fun d => 'a' ≤ Char.toLower d && Char.toLower d ≤ 'z')

/-- The class of a single-quote or double-quote character. -/
def quoteR : RE :=
  RE.pred (fun d => d = Char.ofNat 39 || d = Char.ofNat 34)

/-- The class `[/\\]`. -/
def slashR : RE :=
  RE.pred (fun d => d = '/' || d = '\\')

/-- `CommandSafety.DANGEROUS_PATTERNS`: each source regex translated to
the shallow syntax, paired with its reason, in source order. -/
def DANGEROUS_PATTERNS : List (RE × String) := [
  (seqs [RE.wb, rstr "rm", plusR wsR, rstr "-rf", plusR wsR, oneOf "/~$"],
    "Recursive delete of root or home"),
  (seqs [RE.wb, rstr "rm", plusR wsR, rstr "-rf", plusR wsR, litR '/'],
    "Recursive delete including root path"),
  (seqs [rstr "del", plusR wsR, litR '/', oneOf "sq", plusR wsR],
    "Delete with /s /q (tree wipe)"),
  (seqs [rstr "rd", plusR wsR, litR '/', oneOf "sq", plusR wsR],
    "Remove directory tree"),
  (seqs [RE.wb, rstr "format", plusR wsR],
    "Disk format"),
  (rstr "Format-Volume",
    "Format volume"),
  (rstr "Clear-Disk",
    "Clear disk"),
  (seqs [rstr "Remove-Item", plusR wsR, RE.star dotR, rstr "-Path", plusR wsR, optR quoteR, slashR],
    "Remove from root or system path"),
  (seqs [rstr "dd", plusR wsR, RE.star dotR, rstr "of=/dev/sd"],
    "Raw disk write"),
  (seqs [litR '>', RE.star wsR, rstr "/dev/sd", lowerRangeR],
    "Overwrite block device"),
  (seqs [litR '>', RE.star wsR, rstr "/dev/nvme"],
    "Overwrite NVMe"),
  (seqs [RE.wb, rstr "shutdown", plusR wsR],
    "System shutdown"),
  (seqs [RE.wb, rstr "reboot", RE.wb],
    "System reboot"),
  (rstr "Restart-Computer",
    "Restart computer"),
  (rstr "Stop-Computer",
    "Stop computer"),
  (seqs [rstr "Stop-Process", plusR wsR, rstr "-Id", plusR wsR, litR '1'],
    "Kill init process"),
  (seqs [RE.wb, rstr "bcdedit", plusR wsR],
    "Boot config edit"),
  (seqs [rstr "reg", plusR wsR, rstr "delete"],
    "Registry delete"),
  (seqs [litR ':', litR '(', litR ')', RE.star wsR, litR (Char.ofNat 123)],
    "Fork bomb pattern"),
  (seqs [litR '$', RE.star wsR, litR '(', RE.star wsR, litR '$', RE.star wsR, litR ')'],
    "Fork bomb ($())"),
  (rstr "Disable-WindowsOptionalFeature",
    "Disable Windows feature"),
  (seqs [rstr "wmic", plusR wsR, rstr "diskdrive", plusR wsR, rstr "delete"],
    "Delete disk via WMIC"),
  (seqs [rstr "DROP", plusR wsR, rstr "DATABASE"],
    "Drop database"),
  (seqs [rstr "DROP", plusR wsR, rstr "TABLE", plusR wsR, RE.star dotR, litR '*'],
    "Drop all tables"),
  (seqs [rstr "TRUNCATE", plusR wsR],
    "Truncate table")]

/-- `CommandSafety.DANGEROUS_SUBSTRINGS`, in source order. -/
def DANGEROUS_SUBSTRINGS : List String := [
  "rm -rf /",
  "rm -rf ~",
  "rm -rf /*",
  "rm -rf / ",
  "rm -rf $",
  "format c:",
  "format d:",
  "mkfs.ext",
  "mkfs.ntfs",
  ":(){ :|:& };:",
  "chmod -R 777 /",
  "chown -R"]

/-- Character-list prefix test (Boolean). -/
def prefixOfC : List Char → List Char → Bool
  | [], _ => true
  | _ :: _, [] => false
  | a :: as, b :: bs => a == b && prefixOfC as bs

/-- Python's `needle in hay` on strings: `needle` occurs contiguously
somewhere in `hay`. -/
def substrIn (needle : List Char) : List Char → Bool
  | [] => needle.isEmpty
  | c :: rest => prefixOfC needle (c :: rest) || substrIn needle rest

/-- Reason built by the substring branch of `check`:
the f-string `"Blocked: potentially destructive ({substr})"`. -/
def substrReason (sub : String) : String :=
  String.mk ("Blocked: potentially destructive (".data ++ sub.data ++ ")".data)

/-- Reason built by the pattern branch of `check`: `"Blocked: {reason}"`. -/
def patReason (r : String) : String :=
  String.mk ("Blocked: ".data ++ r.data)

/-- First substring rule whose lowercased value occurs in the lowercased
stripped command (the `for substr in cls.DANGEROUS_SUBSTRINGS` loop). -/
def substrFind (s : List Char) : Option String :=
  DANGEROUS_SUBSTRINGS.find?
    (fun sub => substrIn (sub.data.map Char.toLower) ((stripWs s).map Char.toLower))

/-- First pattern rule whose regex finds a match in the
whitespace-normalised command (the `for pattern, reason` loop). -/
def patFind (s : List Char) : Option (RE × String) :=
  DANGEROUS_PATTERNS.find? (fun pr => reSearch pr.1 (normWs s))

/-- `CommandSafety.check`: returns `(is_safe, block_reason)`. -/
def check (cmd : String) : Bool × String :=
  if cmd.data.isEmpty || (stripWs cmd.data).isEmpty then (true, "")
  else
    match substrFind cmd.data with
    | some sub => (false, substrReason sub)
    | none =>
      match patFind cmd.data with
      | some pr => (false, patReason pr.2)
      | none => (true, "")

/-! Supporting lemmas about the embedded string operations. -/

theorem stripWs_eq_nil_of_all {l : List Char} (h : l.all isSpaceC = true) :
    stripWs l = [] := by
  have h1 : l.dropWhile isSpaceC = [] :=
    List.dropWhile_eq_nil_iff.mpr (fun x hx => List.all_eq_true.mp h x hx)
  simp [stripWs, h1]

theorem substrFind_of_strip_nil {s : List Char} (h : stripWs s = []) :
    substrFind s = none := by
  unfold substrFind
  rw [h]
  decide

theorem guard_eq_false {s : List Char} (h : stripWs s ≠ []) :
    (s.isEmpty || (stripWs s).isEmpty) = false := by
  cases hs : s with
  | nil => exact absurd (by rw [hs] at h ⊢; rfl) h
  | cons c cs =>
    rw [← hs]
    cases hss : stripWs s with
    | nil => exact absurd hss h
    | cons d ds => simp [hs, hss, List.isEmpty]

theorem strip_nil_of_guard {s : List Char} (h : (s.isEmpty || (stripWs s).isEmpty) = true) :
    stripWs s = [] := by
  rcases Bool.or_eq_true_iff.mp h with h1 | h2
  · cases s with
    | nil => rfl
    | cons c cs => simp [List.isEmpty] at h1
  · cases hss : stripWs s with
    | nil => rfl
    | cons d ds => rw [hss] at h2; simp [List.isEmpty] at h2

theorem prefixOfC_self_append : ∀ (l t : List Char), prefixOfC l (l ++ t) = true
  | [], _ => rfl
  | a :: as, t => by
    simp [prefixOfC, prefixOfC_self_append as t]

theorem substrIn_cons_of {l h : List Char} (c : Char) (hh : substrIn l h = true) :
    substrIn l (c :: h) = true := by
  simp [substrIn, hh]

theorem substrIn_self_append (l t : List Char) : substrIn l (l ++ t) = true := by
  cases l with
  | nil =>
    cases t with
    | nil => rfl
    | cons c r => simp [substrIn, prefixOfC]
  | cons a as =>
    simp [substrIn, prefixOfC, prefixOfC_self_append]

theorem substrIn_prepend : ∀ (a l h : List Char), substrIn l h = true → substrIn l (a ++ h) = true
  | [], _, _, hh => hh
  | c :: cs, l, h, hh => by
    simpa using substrIn_cons_of c (substrIn_prepend cs l h hh)

theorem substrIn_sandwich (a m b : List Char) : substrIn m (a ++ m ++ b) = true := by
  rw [List.append_assoc]
  exact substrIn_prepend a m (m ++ b) (substrIn_self_append m b)

theorem substrReason_ne_empty (sub : String) : substrReason sub ≠ "" := by
  intro h
  have h2 := congrArg (fun t => t.data.length) h
  simp [substrReason] at h2

theorem patReason_ne_empty (r : String) : patReason r ≠ "" := by
  intro h
  have h2 := congrArg (fun t => t.data.length) h
  simp [patReason] at h2

theorem patFind_eq_none {s : List Char} (h : (patFind s).isSome = false) :
    patFind s = none := by
  cases hp : patFind s with
  | none => rfl
  | some pr => rw [hp] at h; simp at h

theorem dropWhile_append_of_all {ws rest : List Char} (h : ws.all isSpaceC = true) :
    (ws ++ rest).dropWhile isSpaceC = rest.dropWhile isSpaceC := by
  induction ws with
  | nil => simp
  | cons c cs ih =>
    rw [List.all_cons, Bool.and_eq_true] at h
    simp [List.dropWhile_cons, h.1, ih h.2]

theorem all_reverse_space {l : List Char} (h : l.all isSpaceC = true) :
    l.reverse.all isSpaceC = true := by
  rw [List.all_eq_true] at h ⊢
  intro x hx
  exact h x (List.mem_reverse.mp hx)

/-- Stripping a word surrounded by whitespace yields the word, provided the
word starts and ends with a non-whitespace character. -/
theorem stripWs_sandwich (c : Char) (cs ws1 ws2 : List Char)
    (h1 : ws1.all isSpaceC = true) (h2 : ws2.all isSpaceC = true)
    (hc : isSpaceC c = false)
    (hlast : ∃ d ds, (c :: cs).reverse = d :: ds ∧ isSpaceC d = false) :
    stripWs (ws1 ++ (c :: cs) ++ ws2) = c :: cs := by
  unfold stripWs
  rw [List.append_assoc, dropWhile_append_of_all h1]
  have e1 : ((c :: cs) ++ ws2).dropWhile isSpaceC = c :: (cs ++ ws2) := by
    simp [List.dropWhile_cons, hc]
  rw [e1]
  have e2 : (c :: (cs ++ ws2)).reverse = ws2.reverse ++ (c :: cs).reverse := by
    simp
  rw [e2, dropWhile_append_of_all (all_reverse_space h2)]
  obtain ⟨d, ds, hrev, hd⟩ := hlast
  have e3 : List.dropWhile isSpaceC (d :: ds) = d :: ds := by
    simp [List.dropWhile_cons, hd]
  rw [hrev, e3, ← hrev, List.reverse_reverse]

theorem foldr_wordStep_all_space (ws : List Char) (acc : List (List Char))
    (h : ws.all isSpaceC = true) :
    ws.foldr wordStep acc = List.replicate ws.length [] ++ acc := by
  induction ws with
  | nil => simp
  | cons c cs ih =>
    rw [List.all_cons, Bool.and_eq_true] at h
    simp [wordStep, h.1, ih h.2, List.replicate_succ]

theorem foldr_wordStep_word (c : Char) (cs : List Char) (n : Nat)
    (hall : (c :: cs).all (fun d => !isSpaceC d) = true) :
    (c :: cs).foldr wordStep (List.replicate n []) =
      (c :: cs) :: (List.replicate n ([] : List Char)).tail := by
  induction cs generalizing c with
  | nil =>
    rw [List.all_cons] at hall
    simp at hall
    cases n with
    | zero => simp [wordStep, hall]
    | succ m => simp [wordStep, hall, List.replicate_succ]
  | cons d ds ih =>
    rw [List.all_cons, Bool.and_eq_true] at hall
    have hc : isSpaceC c = false := by
      rcases hall with ⟨hne, _⟩
      cases hcc : isSpaceC c with
      | false => rfl
      | true => rw [hcc] at hne; simp at hne
    have := ih d hall.2
    simp only [List.foldr_cons] at this ⊢
    rw [this]
    simp [wordStep, hc]

theorem filter_replicate_nil (n : Nat) :
    (List.replicate n ([] : List Char)).filter (fun w => !w.isEmpty) = [] := by
  induction n with
  | zero => rfl
  | succ m ih => simp [List.replicate_succ, List.isEmpty, ih]

/-- Splitting a whitespace-free word surrounded by whitespace yields the
singleton word list. -/
theorem splitWs_sandwich (c : Char) (cs ws1 ws2 : List Char)
    (h1 : ws1.all isSpaceC = true) (h2 : ws2.all isSpaceC = true)
    (hall : (c :: cs).all (fun d => !isSpaceC d) = true) :
    splitWs (ws1 ++ (c :: cs) ++ ws2) = [c :: cs] := by
  unfold splitWs splitWsAux
  rw [List.append_assoc, List.foldr_append, List.foldr_append]
  have e0 : ws2.foldr wordStep [] = List.replicate ws2.length [] := by
    simpa using foldr_wordStep_all_space ws2 [] h2
  rw [e0, foldr_wordStep_word c cs _ hall, foldr_wordStep_all_space ws1 _ h1,
    List.filter_append, filter_replicate_nil]
  cases hn : ws2.length with
  | zero => simp [List.isEmpty]
  | succ m => simp [List.replicate_succ, List.isEmpty, filter_replicate_nil]

theorem normWs_sandwich (c : Char) (cs ws1 ws2 : List Char)
    (h1 : ws1.all isSpaceC = true) (h2 : ws2.all isSpaceC = true)
    (hall : (c :: cs).all (fun d => !isSpaceC d) = true) :
    normWs (ws1 ++ (c :: cs) ++ ws2) = c :: cs := by
  unfold normWs
  rw [splitWs_sandwich c cs ws1 ws2 h1 h2 hall]
  simp [List.intercalate]

theorem all_space_of_strip_nil {l : List Char} (h : stripWs l = []) :
    l.all isSpaceC = true := by
  unfold stripWs at h
  rw [List.reverse_eq_nil_iff] at h
  have hdrop : ∀ x ∈ l.dropWhile isSpaceC, isSpaceC x := by
    intro x hx
    exact List.dropWhile_eq_nil_iff.mp h x (List.mem_reverse.mpr hx)
  rw [List.all_eq_true]
  intro x hx
  rw [← List.takeWhile_append_dropWhile (p := isSpaceC) (l := l)] at hx
  rcases List.mem_append.mp hx with h1 | h2
  · exact List.mem_takeWhile_imp h1
  · exact hdrop x h2

theorem splitWs_of_all_space {l : List Char} (h : l.all isSpaceC = true) :
    splitWs l = [] := by
  unfold splitWs splitWsAux
  have e : l.foldr wordStep [] = List.replicate l.length [] := by
    simpa using foldr_wordStep_all_space l [] h
  rw [e]
  exact filter_replicate_nil _

theorem patFind_of_strip_nil {s : List Char} (h : stripWs s = []) :
    patFind s = none := by
  have hall := all_space_of_strip_nil h
  unfold patFind normWs
  rw [splitWs_of_all_space hall]
  rfl

/-! Claim theorems. -/

/-- C1: for every input, `is_safe` is true exactly when the reason is
empty; any blocked verdict carries a non-empty reason; a substring match
yields an unsafe verdict whose reason contains the offending substring,
and a pattern match (with no substring match) yields the reason built
from that rule's category text. -/
theorem check_safe_iff_reason_empty (cmd : String) :
    ((check cmd).1 = true ↔ (check cmd).2 = "") ∧
    ((check cmd).1 = false → (check cmd).2 ≠ "") ∧
    (∀ sub, substrFind cmd.data = some sub →
      (check cmd).1 = false ∧ substrIn sub.data (check cmd).2.data = true) ∧
    (∀ pr, substrFind cmd.data = none → patFind cmd.data = some pr →
      (check cmd).2 = patReason pr.2) := by
  unfold check
  split
  next hguard =>
    have hnil := strip_nil_of_guard hguard
    refine ⟨iff_of_true rfl rfl, fun h => absurd h (by decide), ?_, ?_⟩
    · intro sub hsub
      rw [substrFind_of_strip_nil hnil] at hsub
      exact Option.noConfusion hsub
    · intro pr hsf hpf
      rw [patFind_of_strip_nil hnil] at hpf
      exact Option.noConfusion hpf
  next hguard =>
    split
    next sub hsub =>
      refine ⟨iff_of_false (by simp) (substrReason_ne_empty sub),
        fun _ => substrReason_ne_empty sub, ?_, ?_⟩
      · intro sub' hsub'
        rw [hsub] at hsub'
        obtain rfl : sub = sub' := Option.some.inj hsub'
        refine ⟨rfl, ?_⟩
        show substrIn sub.data
          (("Blocked: potentially destructive (").data ++ sub.data ++ (")").data) = true
        exact substrIn_sandwich _ _ _
      · intro pr hsf _
        rw [hsub] at hsf
        exact Option.noConfusion hsf
    next hsf =>
      split
      next pr hpf =>
        refine ⟨iff_of_false (by simp) (patReason_ne_empty pr.2),
          fun _ => patReason_ne_empty pr.2, ?_, ?_⟩
        · intro sub' hsub'
          rw [hsf] at hsub'
          exact Option.noConfusion hsub'
        · intro pr' _ hpf'
          rw [hpf] at hpf'
          obtain rfl : pr = pr' := Option.some.inj hpf'
          rfl
      next hpf =>
        refine ⟨iff_of_true rfl rfl, fun h => absurd h (by decide), ?_, ?_⟩
        · intro sub' hsub'
          rw [hsf] at hsub'
          exact Option.noConfusion hsub'
        · intro pr' _ hpf'
          rw [hpf] at hpf'
          exact Option.noConfusion hpf'

/-- C1, witness: on `"rm -rf ~"` the second substring rule fires and the
reason contains the offending substring. -/
theorem check_safe_iff_reason_empty_witness :
    (check "rm -rf ~").1 = false ∧
    substrIn ("rm -rf ~").data (check "rm -rf ~").2.data = true :=
  (check_safe_iff_reason_empty "rm -rf ~").2.2.1 "rm -rf ~" (by decide)

/-- C2: whenever any substring rule matches, `check` returns that (first
matching) rule's verdict, so substring rules take precedence over pattern
rules; on the dual-match command `"rm -rf / ; del /s /q C:\\"` a pattern
rule also matches, yet the substring rule's reason is returned. -/
theorem substring_rules_precede_pattern_rules :
    (∀ (cmd : String) (sub : String), substrFind cmd.data = some sub →
      check cmd = (false, substrReason sub)) ∧
    check "rm -rf / ; del /s /q C:\\" = (false, substrReason "rm -rf /") ∧
    (patFind ("rm -rf / ; del /s /q C:\\").data).isSome = true := by
  refine ⟨?_, by decide, by decide⟩
  intro cmd sub h
  have hne : stripWs cmd.data ≠ [] := by
    intro hnil
    rw [substrFind_of_strip_nil hnil] at h
    exact Option.noConfusion h
  unfold check
  rw [guard_eq_false hne]
  simp only [Bool.false_eq_true, if_false, h]

/-- C2, witness: discharging the substring-match hypothesis at the
dual-match command. -/
theorem substring_rules_precede_pattern_rules_witness :
    check "rm -rf / ; del /s /q C:\\" = (false, substrReason "rm -rf /") :=
  substring_rules_precede_pattern_rules.1 "rm -rf / ; del /s /q C:\\" "rm -rf /" (by decide)

/-- C3: `check` is total by construction (it is a Lean function), and
when no substring rule and no pattern rule matches it returns the safe
verdict with an empty reason. -/
theorem check_total_default_safe (cmd : String)
    (h1 : substrFind cmd.data = none) (h2 : (patFind cmd.data).isSome = false) :
    check cmd = (true, "") := by
  have h2' := patFind_eq_none h2
  unfold check
  split
  · rfl
  · simp only [h1, h2']

/-- C3, witness: the benign command `"ls -la"` matches no rule and is
declared safe. -/
theorem check_total_default_safe_witness : check "ls -la" = (true, "") :=
  check_total_default_safe "ls -la" (by decide) (by decide)

/-- C4: the empty string and every all-whitespace string are declared
safe with an empty reason by the initial guard. -/
theorem whitespace_only_safe (cmd : String) (h : cmd.data.all isSpaceC = true) :
    check cmd = (true, "") := by
  have hnil := stripWs_eq_nil_of_all h
  unfold check
  have hg : (cmd.data.isEmpty || (stripWs cmd.data).isEmpty) = true := by
    rw [hnil]
    simp
  rw [hg]
  simp

/-- C4, witness: the empty string and a tab-and-space string. -/
theorem whitespace_only_safe_witness :
    check "" = (true, "") ∧ check " \t\n " = (true, "") :=
  ⟨whitespace_only_safe "" (by decide), whitespace_only_safe " \t\n " (by decide)⟩

/-- C10: a bare `shutdown`, optionally surrounded by whitespace, is
declared safe — the `System shutdown` pattern requires whitespace after
the word, and normalisation strips the surrounding whitespace — while
`shutdown` followed by further text is blocked. -/
theorem bare_shutdown_safe (cmd : String) (ws1 ws2 : List Char)
    (hcmd : cmd.data = ws1 ++ ("shutdown").data ++ ws2)
    (h1 : ws1.all isSpaceC = true) (h2 : ws2.all isSpaceC = true) :
    check cmd = (true, "") ∧
    check "shutdown now" = (false, patReason "System shutdown") := by
  have hsd : ("shutdown").data = 's' :: ("hutdown").data := by decide
  have hstrip : stripWs cmd.data = ("shutdown").data := by
    rw [hcmd, hsd]
    exact stripWs_sandwich 's' (("hutdown").data) ws1 ws2 h1 h2 (by decide)
      ⟨'n', ("wodtuhs").data, by decide, by decide⟩
  have hnorm : normWs cmd.data = ("shutdown").data := by
    rw [hcmd, hsd]
    exact normWs_sandwich 's' (("hutdown").data) ws1 ws2 h1 h2 (by decide)
  have hsf : substrFind cmd.data = none := by
    unfold substrFind
    rw [hstrip]
    decide
  have hpf : patFind cmd.data = none := by
    unfold patFind
    rw [hnorm]
    rfl
  have hne : stripWs cmd.data ≠ [] := by
    rw [hstrip]
    decide
  constructor
  · unfold check
    rw [guard_eq_false hne]
    simp only [Bool.false_eq_true, if_false, hsf, hpf]
  · decide

/-- C10, witness: `" shutdown "` is safe, `"shutdown now"` is blocked. -/
theorem bare_shutdown_safe_witness :
    check " shutdown " = (true, "") ∧
    check "shutdown now" = (false, patReason "System shutdown") :=
  bare_shutdown_safe " shutdown " [' '] [' '] (by decide) (by decide) (by decide)

/-- C5, counterexample: the claim says every literal in
`DANGEROUS_SUBSTRINGS` equals its own lowercased form, but
`"chmod -R 777 /"` is in the list and contains an uppercase `R`. -/
theorem substring_literal_not_lowercase :
    "chmod -R 777 /" ∈ DANGEROUS_SUBSTRINGS ∧
    ¬("chmod -R 777 /".data.map Char.toLower = "chmod -R 777 /".data) := by
  decide

/-- C5, amended: exactly the literals `"chmod -R 777 /"` and `"chown -R"`
fail to be lowercase; the comparison is nonetheless case-insensitive
because `check` lowercases each literal before testing it against the
lowercased command, as the two `chmod` probes (differing only in case)
show, both blocked with the same reason built from the original literal. -/
theorem substring_match_case_insensitive :
    DANGEROUS_SUBSTRINGS.filter (fun s => !(s.data.map Char.toLower == s.data)) =
      ["chmod -R 777 /", "chown -R"] ∧
    check "CHMOD -r 777 /" = (false, substrReason "chmod -R 777 /") ∧
    check "chmod -R 777 /" = (false, substrReason "chmod -R 777 /") := by
  decide

/-- C6: on `"rm   -rf     /"` (irregular internal spacing) no substring
rule matches the un-normalised lowercased text, the whitespace-normalised
copy is `"rm -rf /"`, and `check` blocks via the first pattern rule, the
recursive-delete pattern. -/
theorem irregular_spacing_blocked_by_pattern :
    check "rm   -rf     /" = (false, patReason "Recursive delete of root or home") ∧
    substrFind ("rm   -rf     /").data = none ∧
    normWs ("rm   -rf     /").data = ("rm -rf /").data ∧
    (patFind ("rm   -rf     /").data).map Prod.snd = some "Recursive delete of root or home" := by
  decide

/-- C7: `check` is case-insensitive on `"FORMAT C:"` versus
`"format c:"`; both are blocked with the identical reason. -/
theorem case_insensitive_format :
    check "FORMAT C:" = (false, substrReason "format c:") ∧
    check "format c:" = (false, substrReason "format c:") := by
  decide

/-- C8: matching is not anchored to command boundaries; a dangerous
phrase embedded in a longer compound command still triggers a block. -/
theorem embedded_command_blocked :
    check "echo hi && rm -rf /" = (false, substrReason "rm -rf /") := by
  decide

/-- C9: `check` is deterministic and stateless; any two invocations on
the same input string yield the same verdict. -/
theorem check_deterministic (cmd : String) (v₁ v₂ : Bool × String)
    (h1 : check cmd = v₁) (h2 : check cmd = v₂) : v₁ = v₂ :=
  h1.symm.trans h2

/-- C9, witness at a concrete input. -/
theorem check_deterministic_witness :
    ((true : Bool), ("" : String)) = ((true : Bool), ("" : String)) :=
  check_deterministic "echo hello" (true, "") (true, "") (by decide) (by decide)

end TerminalHelper
